import Mathlib

/-
  Verification of the PRET printer-exploitation client (Python 3 port).
  The per-dialect command engines (pjl.cmd, postscript.cmd, pcl.cmd), the
  virtual macro file system of the PCL backend, the PJL status parser, the
  PJL PIN cracker and the PostScript directory listing are embedded as
  executable Lean definitions; byte strings are lists of naturals below 256.
  Code living outside the sources at hand (helper.py, printer.py) is
  modelled from the specification and marked as such on each definition.
-/

/-- Byte strings (Python `bytes`) are lists of naturals. -/
abbrev Bytes := List Nat

/-- ASCII bytes of a Lean string literal (all literals used are ASCII). -/
def strBytes (s : String) : Bytes := s.data.map Char.toNat

/-- The escape byte, `c.ESC` (0x1b), as used by the PCL dialect framing. -/
def ESC : Bytes := [27]

/-- Python runtime errors relevant to the embedded code paths. -/
inductive PyErr where
  | valueError
  | typeError
deriving DecidableEq

/-- Python `bytes(n)` for a nonnegative integer `n`: a run of `n` zero bytes. -/
def pyBytesNat (n : Nat) : Bytes := List.replicate n 0

/-- Python `bytes(i)` for an arbitrary integer: raises `ValueError: negative
count` when `i < 0`, otherwise yields `i` zero bytes. -/
def pyBytesInt (i : Int) : Except PyErr Bytes :=
  if i < 0 then .error .valueError else .ok (List.replicate i.toNat 0)

/-- Python `ord(b)` on a bytes object: the single byte value when the length
is one, otherwise a `TypeError`. -/
def pyOrd (b : Bytes) : Except PyErr Nat :=
  match b with
  | [x] => .ok x
  | _ => .error .typeError

/-- Digit-accumulating helper for the decimal rendering of a natural; the
first argument is structural fuel, always called with at least `n`. -/
def natToDigitsAux : Nat → Nat → Bytes → Bytes
  | _, 0, acc => acc
  | 0, _ + 1, acc => acc
  | f + 1, n + 1, acc =>
    natToDigitsAux f ((n + 1) / 10) (((n + 1) % 10 + 48) :: acc)

/-- ASCII bytes of Python `str(n)` for a natural number `n`. -/
def natToDecBytes (n : Nat) : Bytes :=
  if n = 0 then [48] else natToDigitsAux n n []

/-- Numeric value of a decimal digit byte string (inverse of
`natToDecBytes` on its image). -/
def decVal (l : Bytes) : Nat := l.foldl (fun a d => 10 * a + (d - 48)) 0

/-- ASCII bytes of Python `str(i)` for an integer, with a minus sign when
negative. -/
def intToDecBytes (i : Int) : Bytes :=
  if i < 0 then 45 :: natToDecBytes i.natAbs else natToDecBytes i.toNat

-- ======================================================================
-- Command-engine exception handling (pjl.cmd / postscript.cmd / pcl.cmd)
-- ======================================================================

/-- A caught Python exception, abstracted to the two attributes the three
`except` blocks inspect: whether it is a `KeyboardInterrupt`, and whether
`str(e)` is nonempty. -/
structure PyExc where
  isKI : Bool
  msgNonempty : Bool
deriving DecidableEq

/-- What an `except` block does with a caught exception: re-raise it,
reconnect and return an empty response, or return an empty response without
reconnecting. -/
inductive HandlerResult where
  | raised
  | reconnectedEmpty
  | droppedEmpty
deriving DecidableEq

/-- The `except (KeyboardInterrupt, Exception)` block of `pjl.cmd`:
re-raise when `self.exceptions`; otherwise reconnect unless fuzz mode is on
and the exception message is nonempty; always return `b""` when not
re-raising. -/
def pjl_cmd_handler (exceptions fuzz : Bool) (e : PyExc) : HandlerResult :=
  if exceptions then .raised
  else if !fuzz || !e.msgNonempty then .reconnectedEmpty
  else .droppedEmpty

/-- The `except (KeyboardInterrupt, Exception)` block of `postscript.cmd`:
re-raise when `self.exceptions` is set and the exception is not a
`KeyboardInterrupt`; otherwise reconnect and return `b""`. -/
def ps_cmd_handler (exceptions : Bool) (e : PyExc) : HandlerResult :=
  if exceptions && !e.isKI then .raised else .reconnectedEmpty

/-- The `except (KeyboardInterrupt, Exception)` block of `pcl.cmd`: it
consults neither `self.exceptions` nor the exception kind — it always
reconnects and returns `b""` (the parameters record the session state the
other two handlers read). -/
def pcl_cmd_handler (_exceptions : Bool) (_e : PyExc) : HandlerResult :=
  .reconnectedEmpty

-- ======================================================================
-- pcl.cmd: token minting happens before the try block
-- ======================================================================

/-- Outcome of the body of `pcl.cmd`'s try block (logfile write, send,
receive, PCL-line cropping), summarized as an oracle value: transport and
regex plumbing live in printer.py, which is outside the sources at hand. -/
inductive TryOutcome where
  | ok (resp : Bytes)
  | exc

/-- Modelled from the spec: `helper.const.UEL`, the end-of-job language-
switch marker. Its exact bytes are not fixed by the spec and no claim
depends on them. -/
def UEL : Bytes := strBytes "%-12345X"

/-- Modelled from the spec: `helper.const.PCL_HEADER`, the macro-dialect
interpreter-entry sequence. Its exact bytes are not fixed by the spec and
no claim depends on them. -/
def PCL_HEADER : Bytes := strBytes "PCLHEADER"

/-- The `pcl.cmd` engine: mints the delimiter token as
`bytes(random.randrange(2**8, 2**15) * -1)` before the try block, so a
`ValueError` from the negative count escapes the function with nothing
sent; inside the try block an exception instead yields a reconnect and an
empty response. The result pairs the Python-level outcome with the list of
buffers handed to `self.send`. -/
def pcl_cmd (tryBody : Bytes → TryOutcome) (rand : Nat) (payload : Bytes) :
    Except PyErr Bytes × List Bytes :=
  match pyBytesInt (-(rand : Int)) with
  | .error e => (.error e, [])
  | .ok token =>
    let footer := ESC ++ strBytes "*s" ++ token ++ strBytes "X"
    let cmd_send := UEL ++ PCL_HEADER ++ payload ++ footer ++ UEL
    match tryBody cmd_send with
    | .ok resp => (.ok resp, [cmd_send])
    | .exc => (.ok [], [cmd_send])

-- ======================================================================
-- Delimiter tokens (pjl.cmd line 19, postscript.cmd line 19)
-- ======================================================================

/-- Modelled from the spec: `helper.const.DELIMITER`, the fixed marker that
prefixes every minted token. The spec fixes neither its bytes nor its
length, and every theorem below holds for any fixed value. -/
def DELIMITER : Bytes := strBytes "DELIMITER"

/-- Modelled from the spec: `helper.const.EOL`, the dialect line
terminator. Its exact bytes are not fixed by the spec and no claim depends
on them. -/
def EOL : Bytes := [13, 10]

/-- The `pjl.cmd` token: `c.DELIMITER + bytes(random.randrange(2**16))` —
in Python 3 `bytes(r)` is a run of `r` zero bytes, not the decimal text of
`r`. -/
def pjl_token (r : Nat) : Bytes := DELIMITER ++ pyBytesNat r

/-- The `postscript.cmd` token:
`c.DELIMITER + str(random.randrange(2**16)).encode()` — the decimal text of
the draw after the marker. -/
def ps_token (r : Nat) : Bytes := DELIMITER ++ natToDecBytes r

/-- The `pjl.cmd` footer built from the token when a reply is expected:
`b'@PJL ECHO ' + token + c.EOL + c.EOL`. -/
def pjl_footer (r : Nat) : Bytes :=
  strBytes "@PJL ECHO " ++ pjl_token r ++ EOL ++ EOL

/-- The `postscript.cmd` footer built from the token:
`b'\n(' + token + b'\\n) print flush\n'`. -/
def ps_footer (r : Nat) : Bytes :=
  strBytes "\n(" ++ ps_token r ++ strBytes "\\n) print flush\n"

-- ======================================================================
-- PCL virtual file system (pclfs)
-- ======================================================================

/-- One value of the superblock mapping: `[macro_id, size, timestamp]`,
each stored as a string by `pcl.put`. -/
structure PclEntry where
  id : Bytes
  size : Bytes
  date : Bytes
deriving DecidableEq

/-- The deserialized superblock: an insertion-ordered mapping from file
name to its entry, as a Python dict is. -/
abbrev Pclfs := List (Bytes × PclEntry)

/-- Python dict assignment `m[k] = v`: replace the value in place when the
key exists, else append the binding. -/
def dictInsert {α : Type} : List (Bytes × α) → Bytes → α → List (Bytes × α)
  | [], k, v => [(k, v)]
  | p :: rest, k, v =>
    if p.1 = k then (k, v) :: rest else p :: dictInsert rest k v

/-- Python dict built by inserting a list of pairs in order (later pairs
overwrite earlier ones in place). -/
def dictOf {α : Type} (l : List (Bytes × α)) : List (Bytes × α) :=
  l.foldl (fun m p => dictInsert m p.1 p.2) []

/-- Python `del m[k]`. -/
def dictRemove {α : Type} (m : List (Bytes × α)) (k : Bytes) : List (Bytes × α) :=
  m.filter (fun p => !(p.1 == k))

/-- The loop of `pcl.data2echo` on a bytes argument: each element `n` is an
integer, `bytes(n)` is a run of `n` zero bytes, and `ord` of it raises a
`TypeError` unless `n = 1` (in which case the echoed "value" is 0 and
`bytes(0)` is empty). -/
def data2echoBytes : Bytes → Except PyErr Bytes
  | [] => .ok []
  | n :: rest => do
    let o ← pyOrd (pyBytesNat n)
    let tail ← data2echoBytes rest
    .ok ((ESC ++ strBytes "*s" ++ pyBytesNat o ++ strBytes "X") ++ tail)

/-- The loop of `pcl.data2echo` on a str argument (the superblock JSON text
passed by `update_superblock`): iteration yields one-character strings and
`bytes(<str>)` raises `TypeError: string argument without an encoding` at
the very first character. -/
def data2echoStr : List Char → Except PyErr Bytes
  | [] => .ok []
  | _ :: _ => .error .typeError

/-- Characters of a byte string (only used to build JSON text). -/
def bytesToString (b : Bytes) : String := String.mk (b.map Char.ofNat)

/-- Modelled from the spec: one entry of the serialized superblock, name
mapped to `[id, size, timestamp]` (Python's `json.dumps` is standard
library, not part of the sources at hand; only the shape of the text
matters below). -/
def jsonEntry (p : Bytes × PclEntry) : String :=
  "\"" ++ bytesToString p.1 ++ "\": [\"" ++ bytesToString p.2.id ++
    "\", \"" ++ bytesToString p.2.size ++ "\", \"" ++ bytesToString p.2.date ++ "\"]"

/-- Modelled from the spec: `json.dumps` of the pclfs dict — a brace-
enclosed, comma-separated object text, in particular always nonempty. -/
def jsonDumps (m : Pclfs) : List Char :=
  '\x7b' :: (String.intercalate ", " (m.map jsonEntry)).data ++ ['\x7d']

/-- The reserved superblock macro id `c.SUPERBLOCK` (31337, from the pclfs
table in pcl.py). -/
def SUPERBLOCK : Bytes := strBytes "31337"

/-- The command payload built by `pcl.define_macro` around already-encoded
echo data. -/
def define_macro_payload (id : Bytes) (echo : Bytes) : Bytes :=
  strBytes "&f" ++ id ++ strBytes "Y" ++ ESC ++ strBytes "&f0X" ++ echo ++
    ESC ++ strBytes "&f1X" ++ ESC ++ strBytes "&f10X"

/-- The command payload built by `pcl.delete_macro`. -/
def delete_macro_payload (id : Bytes) : Bytes :=
  strBytes "&f" ++ id ++ strBytes "Y" ++ ESC ++ strBytes "&f8X"

/-- The serialization step of `pcl.update_superblock`: `json.dumps` the
dict, then `define_macro` it under the reserved id — whose first act is
`data2echo` on the JSON string. -/
def update_superblock (m : Pclfs) : Except PyErr Bytes :=
  (data2echoStr (jsonDumps m)).map (define_macro_payload SUPERBLOCK)

/-- Decimal digit test for the `(\\d+)` group of `echo2data`'s regex. -/
def isDigitB (d : Nat) : Bool := decide (48 ≤ d ∧ d ≤ 57)

/-- The matcher of `re.findall(rb"ECHO (\\d+)", echo)` in `pcl.echo2data`:
at every position where the literal `ECHO ` is followed by at least one
digit, capture the maximal digit run. Scanning every position is the same
as resuming after each match, because no match can begin inside another —
the literal `ECHO ` contains neither an `E` after position zero nor a
digit. -/
def findEchoNums : Bytes → List Bytes
  | [] => []
  | c :: rest =>
    if (strBytes "ECHO ").isPrefixOf (c :: rest) ∧
        ((c :: rest).drop 5).takeWhile isDigitB ≠ []
    then ((c :: rest).drop 5).takeWhile isDigitB :: findEchoNums rest
    else findEchoNums rest

/-- Modelled from the spec: `helper.conv.chr` (helper.py is not among the
sources at hand) — the engine decodes each echoed numeric value back into
the byte it stands for. -/
def convChr (n : Nat) : Bytes := [n]

/-- `pcl.echo2data` (lines 195-200): extract every `ECHO <digits>` match
from the reply and concatenate the bytes the numbers decode to. -/
def echo2data (echo : Bytes) : Bytes :=
  ((findEchoNums echo).map (fun ds => convChr (decVal ds))).flatten

/-- `pcl.retrieve_data` (lines 140-143): build the set-macro-id and
execute-macro command, run it through `pcl.cmd` — whose token minting
raises before anything is sent — and decode the echoes of the reply. -/
def retrieve_data_run (tryBody : Bytes → TryOutcome) (rand : Nat) (id : Bytes) :
    Except PyErr Bytes :=
  match pcl_cmd tryBody rand (strBytes "&f" ++ id ++ strBytes "Y" ++ ESC ++ strBytes "&f2X") with
  | (.error e, _) => .error e
  | (.ok resp, _) => .ok (echo2data resp)

/-- The whole of `pcl.dirlist` (lines 94-103): retrieve the superblock
macro through `pcl.cmd` (propagating its exception), then interpret the
result — `json.loads` is standard library and appears as the parse oracle,
whose `none` models the swallowed deserialization exception; an empty
retrieval skips parsing, a failed parse leaves the default empty dict, and
a falsy parse result is replaced by the empty dict. `rand` is the random
token draw of the one `pcl.cmd` call. -/
def pcl_dirlist_run (tryBody : Bytes → TryOutcome) (rand : Nat)
    (parse : Bytes → Option Pclfs) : Except PyErr Pclfs :=
  match retrieve_data_run tryBody rand SUPERBLOCK with
  | .error e => .error e
  | .ok superblock =>
    .ok (if superblock.isEmpty then []
         else match parse superblock with
           | none => []
           | some p => if p.isEmpty then [] else p)

/-- `pcl.idlist` (lines 82-91): send the inquire-downloaded-macros command
through `pcl.cmd` (propagating its exception); the reply-to-ids extraction
(`re.findall` of `IDLIST`, then `helper.item`, `split` and the
`startswith('1')` filter) is summarized by the `parseIds` oracle because
`helper.item` is not among the sources at hand. -/
def pcl_idlist_run (tryBody : Bytes → TryOutcome) (rand : Nat)
    (parseIds : Bytes → List Nat) : Except PyErr (List Nat) :=
  match pcl_cmd tryBody rand
      (strBytes "*s4T" ++ ESC ++ strBytes "*s0U" ++ ESC ++ strBytes "*s1I") with
  | (.error e, _) => .error e
  | (.ok resp, _) => .ok (parseIds resp)

/-- The user-content macro id pool, 10000..19999 (`c.BLOCKRANGE`, per the
pclfs table in pcl.py). -/
def BLOCKRANGE : List Nat := List.range' 10000 10000

/-- The free identifiers: the pool minus the ids the device reports
(`set(c.BLOCKRANGE).difference(self.idlist())`), in ascending pool order. -/
def freeIds (reserved : List Nat) : List Nat :=
  BLOCKRANGE.filter (fun n => decide (¬ n ∈ reserved))

/-- Modelled from the spec: `str(item(set(c.BLOCKRANGE).difference(...)))`
of pcl.py line 152 — `helper.item` is not among the sources at hand; per
the spec the lowest free pool identifier is chosen, and item's empty-string
alternative (a falsy id) results when the pool is exhausted. -/
def put_free_id (reserved : List Nat) : Bytes :=
  match (freeIds reserved).head? with
  | some n => natToDecBytes n
  | none => []

/-- The whole of `pcl.put` after `basename` (printer.py, not among the
sources at hand, so `path` is the already-stripped name): read the
directory — which goes through `pcl.cmd` and propagates its exception —
then select an id (reusing the recorded one, else the lowest free one via
a second `pcl.cmd` call for `idlist`), abort with the "Out of macro slots"
warning and no device write when the id is falsy (either branch), and
otherwise update and persist the superblock and define the data macro.
`rands` enumerates the per-call random token draws. The successful result
carries the chosen id and the command payloads handed to `self.cmd`. -/
def pcl_put_run (tryBody : Bytes → TryOutcome) (rands : Nat → Nat)
    (parse : Bytes → Option Pclfs) (parseIds : Bytes → List Nat)
    (path data size date : Bytes) : Except PyErr (Option Bytes × List Bytes) :=
  match pcl_dirlist_run tryBody (rands 0) parse with
  | .error e => .error e
  | .ok pclfs =>
    match (match List.lookup path pclfs with
           | some e => .ok e.id
           | none => (pcl_idlist_run tryBody (rands 1) parseIds).map put_free_id :
             Except PyErr Bytes) with
    | .error e => .error e
    | .ok id =>
      if id.isEmpty then .ok (none, [])
      else
        match update_superblock (dictInsert pclfs path ⟨id, size, date⟩) with
        | .error e => .error e
        | .ok sb =>
          match data2echoBytes data with
          | .error e => .error e
          | .ok echo => .ok (some id, [sb, define_macro_payload id echo])

/-- The whole of `pcl.delete` after the dirlist read (taken as input `m`):
when the name is absent only "File not found." is printed; otherwise the
entry is removed from the dict, the superblock is re-serialized and
persisted, and the macro itself is deleted. The successful result carries
the updated dict and the command payloads handed to `self.cmd`. -/
def pcl_delete (m : Pclfs) (arg : Bytes) : Except PyErr (Pclfs × List Bytes) :=
  match List.lookup arg m with
  | none => .ok (m, [])
  | some e => do
    let m' := dictRemove m arg
    let sb ← update_superblock m'
    .ok (m', [sb, delete_macro_payload e.id])

-- ======================================================================
-- PJL PIN cracker (pjl.do_unlock, no user-supplied PIN)
-- ======================================================================

/-- Modelled from the spec: `helper.chunks`, batching a list into
fixed-size chunks (helper.py is not among the sources at hand); only ever
invoked with chunk size 500. -/
def chunksOf {α : Type} (n : Nat) (l : List α) : List (List α) :=
  match l with
  | [] => []
  | x :: xs => (x :: xs.take (n - 1)) :: chunksOf n (xs.drop (n - 1))
termination_by l.length
decreasing_by simp only [List.length_drop, List.length_cons]; omega

/-- The two lines `do_unlock` appends per candidate PIN: try the candidate
as job password, then attempt to reset the stored password to zero. -/
def pjl_pin_line (pin : Bytes) : Bytes :=
  strBytes "@PJL JOB PASSWORD=" ++ pin ++ EOL ++
    strBytes "@PJL DEFAULT PASSWORD=0" ++ EOL

/-- The compound command sent for one chunk: every candidate's two lines,
then a single inquiry of the current protection state. -/
def pjl_chunk_cmd (ch : List Bytes) : Bytes :=
  (ch.map pjl_pin_line).flatten ++ strBytes "@PJL DINQUIRE PASSWORD"

/-- The cracking keyspace when no PIN is supplied: the empty string plus
`str(pin)` for every pin in `range(1, 65536)`. -/
def pjl_keyspace : List Bytes :=
  strBytes "" :: (List.range' 1 65535).map natToDecBytes

/-- The command disabling the control-panel and disk locks once protection
is observed to be gone. -/
def pjl_lock_off : Bytes :=
  strBytes "@PJL DEFAULT CPLOCK=OFF" ++ EOL ++ strBytes "@PJL DEFAULT DISKLOCK=OFF"

/-- The chunk loop of `do_unlock`: send the chunk's compound command (via
`timeoutcmd`, summarized by the device oracle), proceed to the next chunk
when the inquiry reply still starts with `b"ENA"`, and otherwise send the
lock-off command and stop. The result is the trace of payloads sent. -/
def pjl_crack_loop (device : Bytes → Bytes) : List (List Bytes) → List Bytes
  | [] => []
  | ch :: rest =>
    if (strBytes "ENA").isPrefixOf (device (pjl_chunk_cmd ch))
    then pjl_chunk_cmd ch :: pjl_crack_loop device rest
    else [pjl_chunk_cmd ch, pjl_lock_off]

/-- The no-PIN branch of `pjl.do_unlock`: the keyspace batched into chunks
of 500 and fed to the chunk loop. -/
def pjl_do_unlock_nopin (device : Bytes → Bytes) : List Bytes :=
  pjl_crack_loop device (chunksOf 500 pjl_keyspace)

-- ======================================================================
-- PJL status parser (pjl.showstatus)
-- ======================================================================

/-- The vendor workaround of `showstatus`: a code whose decimal text starts
with `b"32"` is replaced by `str(int(code) - 2000).encode()`; any other
code is passed through unchanged. -/
def fix_code (code : Bytes) : Bytes :=
  if (strBytes "32").isPrefixOf code then intToDecBytes ((decVal code : Int) - 2000)
  else code

/-- The placeholder used when no DISPLAY of the code's index exists. -/
def UNKNOWN_STATUS : Bytes := strBytes "UNKNOWN STATUS"

/-- The reporting loop of `pjl.showstatus` over the parsed
`CODE<i>=n` and `DISPLAY<i>="..."` pairs (the `re.findall` results, index
first — an absent index is the empty byte string): both are loaded into
Python dicts (later pairs overwrite earlier ones in place), and each
surviving code is emitted as `b"CODE " + fixed code + b": " + message`,
with the display of the same index or the placeholder. -/
def showstatus_lines (codesL msgsL : List (Bytes × Bytes)) : List Bytes :=
  (dictOf codesL).map fun p =>
    strBytes "CODE " ++ fix_code p.2 ++ strBytes ": " ++
      ((List.lookup p.1 (dictOf msgsL)).getD UNKNOWN_STATUS)

-- ======================================================================
-- PostScript directory listing (postscript.dirlist / postscript.find)
-- ======================================================================

/-- Python `bytes.splitlines` (splits at LF, CR and CRLF, no trailing
empty line): accumulator-passing worker. -/
def splitLinesAux : Bytes → Bytes → List Bytes
  | [], cur => if cur.isEmpty then [] else [cur.reverse]
  | 13 :: 10 :: rest, cur => cur.reverse :: splitLinesAux rest []
  | 13 :: rest, cur => cur.reverse :: splitLinesAux rest []
  | 10 :: rest, cur => cur.reverse :: splitLinesAux rest []
  | c :: rest, cur => splitLinesAux rest (c :: cur)

/-- Python `bytes.splitlines`. -/
def splitLines (b : Bytes) : List Bytes := splitLinesAux b []

/-- Lexicographic strict order on byte strings, as Python compares bytes. -/
def lexLt : Bytes → Bytes → Bool
  | _, [] => false
  | [], _ :: _ => true
  | a :: as, b :: bs => if a < b then true else if b < a then false else lexLt as bs

/-- Ordered duplicate-free insertion with respect to `lexLt`. -/
def insertD (x : Bytes) : List Bytes → List Bytes
  | [] => [x]
  | y :: ys => if x = y then y :: ys else if lexLt x y then x :: y :: ys else y :: insertD x ys

/-- Python `sorted(set(l))` for byte strings: a strictly increasing
enumeration of the members of `l`. -/
def sortDedup (l : List Bytes) : List Bytes := l.foldr insertD []

/-- The PostScript program built by `postscript.find` around an enumeration
pattern (source lines 163-165); `timeoutcmd` delivery is summarized by the
device oracle. -/
def ps_find_payload (path : Bytes) : Bytes :=
  strBytes "\x7bfalse statusdict /setfilenameextend get exec\x7d stopped\n" ++
    strBytes "/str 256 string def (" ++ path ++ strBytes ") " ++
    strBytes "\x7bprint (\\n) print\x7d str filenameforall"

/-- The enumeration core of `postscript.dirlist` (source lines 156-160)
after `rpath`/`get_sep`/`escape` produced the search root `path` and volume
clause `vol` (printer.py path plumbing is outside the sources at hand):
issue the double-wildcard search, fall back to the single-wildcard search
exactly when it returned nothing, then deduplicate the reply lines through
a set and sort them. The result pairs the issued find payloads with the
final listing. -/
def ps_dirlist (device : Bytes → Bytes) (vol path : Bytes) :
    List Bytes × List Bytes :=
  let p1 := ps_find_payload (vol ++ path ++ strBytes "**")
  let r1 := device p1
  if r1.isEmpty then
    let p2 := ps_find_payload (vol ++ path ++ strBytes "*")
    ([p1, p2], sortDedup (splitLines (device p2)))
  else ([p1], sortDedup (splitLines r1))

-- ======================================================================
-- Theorems
-- ======================================================================

/-- Unfolding `natToDigitsAux` over an arbitrary accumulator. -/
theorem natToDigitsAux_eq_append (f : Nat) :
    ∀ n acc, natToDigitsAux f n acc = natToDigitsAux f n [] ++ acc := by
  induction f with
  | zero => intro n acc; cases n <;> simp [natToDigitsAux]
  | succ f ih =>
    intro n acc
    cases n with
    | zero => simp [natToDigitsAux]
    | succ m =>
      rw [natToDigitsAux, natToDigitsAux, ih, ih ((m + 1) / 10) (((m + 1) % 10 + 48) :: [])]
      simp

/-- Appending one digit multiplies the decoded value by ten. -/
theorem decVal_append (l : Bytes) (d : Nat) :
    decVal (l ++ [d]) = 10 * decVal l + (d - 48) := by
  simp [decVal, List.foldl_append]

/-- Given enough fuel, the digit accumulator decodes back to its argument. -/
theorem decVal_natToDigitsAux (f : Nat) :
    ∀ n, n ≤ f → decVal (natToDigitsAux f n []) = n := by
  induction f with
  | zero =>
    intro n hn
    interval_cases n
    simp [natToDigitsAux, decVal]
  | succ f ih =>
    intro n hn
    cases n with
    | zero => simp [natToDigitsAux, decVal]
    | succ m =>
      have hle : (m + 1) / 10 ≤ f := by
        have := Nat.div_lt_self (Nat.succ_pos m) (show 1 < 10 by omega)
        omega
      rw [natToDigitsAux, natToDigitsAux_eq_append, decVal_append, ih _ hle]
      omega

/-- Decimal rendering round-trips through `decVal`. -/
theorem decVal_natToDecBytes (n : Nat) : decVal (natToDecBytes n) = n := by
  by_cases h : n = 0
  · subst h; simp [natToDecBytes, decVal]
  · rw [natToDecBytes, if_neg h]; exact decVal_natToDigitsAux n n le_rfl

/-- Decimal rendering is injective. -/
theorem natToDecBytes_injective (m n : Nat) (h : natToDecBytes m = natToDecBytes n) :
    m = n := by
  have := decVal_natToDecBytes m
  rw [h, decVal_natToDecBytes] at this
  omega

/-- Claim C1, counterexample: with re-raise mode set, `pcl.cmd` still
swallows the exception (reconnect, empty response) instead of propagating
it; `postscript.cmd` does the same for a `KeyboardInterrupt`; and in fuzz
mode with a nonempty message `pjl.cmd` returns empty without reconnecting.
Each conjunct contradicts the claim at an explicit concrete input. -/
theorem cmd_handler_claim_counterexample :
    (pcl_cmd_handler true ⟨false, true⟩ = .reconnectedEmpty ∧
      pcl_cmd_handler true ⟨false, true⟩ ≠ .raised) ∧
    (ps_cmd_handler true ⟨true, true⟩ = .reconnectedEmpty ∧
      ps_cmd_handler true ⟨true, true⟩ ≠ .raised) ∧
    (pjl_cmd_handler false true ⟨false, true⟩ = .droppedEmpty ∧
      pjl_cmd_handler false true ⟨false, true⟩ ≠ .reconnectedEmpty) := by
  decide

/-- Claim C1, amended: `pjl.cmd` propagates the exception exactly when
re-raise mode is set, and otherwise returns an empty response, reconnecting
unless fuzz mode is on and the exception message is nonempty;
`postscript.cmd` propagates exactly when re-raise mode is set and the
exception is not a KeyboardInterrupt, otherwise reconnecting with an empty
response; `pcl.cmd` never propagates and always reconnects with an empty
response, re-raise mode notwithstanding. -/
theorem cmd_handler_amended (ex fz : Bool) (e : PyExc) :
    (pjl_cmd_handler ex fz e = .raised ↔ ex = true) ∧
    (pjl_cmd_handler ex fz e = .reconnectedEmpty ↔
      ex = false ∧ (fz = false ∨ e.msgNonempty = false)) ∧
    (ps_cmd_handler ex e = .raised ↔ ex = true ∧ e.isKI = false) ∧
    (ps_cmd_handler ex e = .reconnectedEmpty ↔ ¬(ex = true ∧ e.isKI = false)) ∧
    pcl_cmd_handler ex e = .reconnectedEmpty := by
  obtain ⟨ki, msg⟩ := e
  cases ex <;> cases fz <;> cases ki <;> cases msg <;> decide

/-- Shared helper: `pcl.cmd` with a draw from `randrange(2**8, 2**15)`
returns the token-minting `ValueError` with nothing sent. -/
theorem pcl_cmd_mint_valueError (tryBody : Bytes → TryOutcome)
    (rand : Nat) (payload : Bytes) (h1 : 256 ≤ rand) (h2 : rand ≤ 32767) :
    pcl_cmd tryBody rand payload = (.error .valueError, []) := by
  have hneg : (-(rand : Int)) < 0 := by
    have : (256 : Int) ≤ (rand : Int) := by exact_mod_cast h1
    omega
  unfold pcl_cmd pyBytesInt
  rw [if_pos hneg]

/-- Claim C2: for every payload, `pcl.cmd` computes its delimiter token as
`bytes(n)` for the negative integer `n = -rand` with `rand` drawn from
`randrange(2**8, 2**15)` (so `-32767 ≤ n ≤ -256`), before the try block;
the resulting `ValueError` escapes the function and nothing is ever handed
to `self.send`. -/
theorem pcl_cmd_raises_before_send (tryBody : Bytes → TryOutcome)
    (rand : Nat) (payload : Bytes) (h1 : 256 ≤ rand) (h2 : rand ≤ 32767) :
    pcl_cmd tryBody rand payload = (.error .valueError, []) :=
  pcl_cmd_mint_valueError tryBody rand payload h1 h2

/-- Witness for C2 at the concrete draw 1000 and payload `b"xyz"`. -/
theorem pcl_cmd_raises_before_send_witness :
    pcl_cmd (fun _ => .exc) 1000 (strBytes "xyz") = (.error .valueError, []) :=
  pcl_cmd_raises_before_send (fun _ => .exc) 1000 (strBytes "xyz")
    (by norm_num) (by norm_num)

/-- Claim C4, counterexample: the `pjl.cmd` token minted from the draw 2 is
the marker followed by two zero bytes, not by the decimal text `"2"` — the
footer does not embed the decimal form of the random integer. -/
theorem token_decimal_claim_counterexample :
    pjl_token 2 = DELIMITER ++ [0, 0] ∧
    natToDecBytes 2 = [50] ∧
    pjl_token 2 ≠ DELIMITER ++ natToDecBytes 2 := by
  refine ⟨rfl, rfl, ?_⟩
  decide

/-- Claim C4, amended: `postscript.cmd` embeds the decimal text of the
fresh draw after the fixed marker, while `pjl.cmd` embeds `bytes(r)` — a
run of `r` zero bytes — after the marker; in both dialects the token
determines the draw, so the tokens of two successive commands differ
exactly when the underlying random draws differ, and no guarantee keeps a
token from occurring inside a payload. -/
theorem token_minting_amended (r s : Nat) :
    (pjl_token r = pjl_token s ↔ r = s) ∧
    (ps_token r = ps_token s ↔ r = s) ∧
    pjl_token r = DELIMITER ++ List.replicate r 0 ∧
    ps_token r = DELIMITER ++ natToDecBytes r ∧
    pjl_footer r = strBytes "@PJL ECHO " ++ pjl_token r ++ EOL ++ EOL ∧
    ps_footer r = strBytes "\n(" ++ ps_token r ++ strBytes "\\n) print flush\n" := by
  refine ⟨?_, ?_, rfl, rfl, rfl, rfl⟩
  · constructor
    · intro h
      have h2 := List.append_cancel_left h
      have := congrArg List.length h2
      simpa [pyBytesNat] using this
    · intro h; rw [h]
  · constructor
    · intro h
      exact natToDecBytes_injective r s (List.append_cancel_left h)
    · intro h; rw [h]

/-- Claim C3, failing input: the byte-to-echo encoding `pcl.data2echo`
raises a `TypeError` already on the single-byte payload `b"A"` (and on the
NUL byte), because `bytes(n)` turns the integer byte into `n` zero bytes
and `ord` rejects anything but length one — so `put` followed by `get`
cannot return the data. -/
theorem data2echo_raises_on_data :
    data2echoBytes (strBytes "A") = .error .typeError ∧
    data2echoBytes [0] = .error .typeError := by
  exact ⟨rfl, rfl⟩

/-- Whenever the draw comes from `randrange(2**8, 2**15)`, the one
`pcl.cmd` call of `retrieve_data(c.SUPERBLOCK)` raises, so `pcl.dirlist`
raises too (shared helper for the claims below). -/
theorem pcl_dirlist_run_valueError (tryBody : Bytes → TryOutcome) (rand : Nat)
    (parse : Bytes → Option Pclfs) (h1 : 256 ≤ rand) (h2 : rand ≤ 32767) :
    pcl_dirlist_run tryBody rand parse = .error .valueError := by
  simp only [pcl_dirlist_run, retrieve_data_run]
  rw [pcl_cmd_mint_valueError tryBody rand _ h1 h2]

/-- Claim C5, failing input: `dirlist()` on any device state never returns
an empty mapping — it always raises. Its superblock retrieval goes through
`pcl.cmd`, whose token minting (`bytes` of a negative draw from
`randrange(2**8, 2**15)`) raises `ValueError` before anything is sent, so
the missing/corrupt-superblock handling of lines 96-103 is dead code. -/
theorem pcl_dirlist_raises (tryBody : Bytes → TryOutcome) (rand : Nat)
    (parse : Bytes → Option Pclfs) (h1 : 256 ≤ rand) (h2 : rand ≤ 32767) :
    pcl_dirlist_run tryBody rand parse = .error .valueError :=
  pcl_dirlist_run_valueError tryBody rand parse h1 h2

/-- Witness for C5 at the concrete draw 1000, a silent transport and a
parser that fails on everything (a missing, corrupt superblock). -/
theorem pcl_dirlist_raises_witness :
    pcl_dirlist_run (fun _ => .exc) 1000 (fun _ => none) = .error .valueError :=
  pcl_dirlist_raises (fun _ => .exc) 1000 (fun _ => none) (by norm_num) (by norm_num)

/-- Claim C6, failing input: `put(name, data)` on any device state raises
before selecting any identifier. Its first step `self.dirlist()` goes
through `pcl.cmd`, whose token minting raises `ValueError` for every draw
from `randrange(2**8, 2**15)`, so the id-reuse / lowest-free / abort logic
of lines 149-154 never executes and nothing is written. -/
theorem pcl_put_raises (tryBody : Bytes → TryOutcome) (rands : Nat → Nat)
    (parse : Bytes → Option Pclfs) (parseIds : Bytes → List Nat)
    (path data size date : Bytes) (h1 : 256 ≤ rands 0) (h2 : rands 0 ≤ 32767) :
    pcl_put_run tryBody rands parse parseIds path data size date =
      .error .valueError := by
  simp only [pcl_put_run]
  rw [pcl_dirlist_run_valueError tryBody (rands 0) parse h1 h2]

/-- Witness for C6: `put("x", b"A")` at the concrete draw 1000 with a
silent transport raises the `ValueError`. -/
theorem pcl_put_raises_witness :
    pcl_put_run (fun _ => .exc) (fun _ => 1000) (fun _ => none) (fun _ => [])
      (strBytes "x") (strBytes "A") (strBytes "1") (strBytes "0") =
      .error .valueError :=
  pcl_put_raises (fun _ => .exc) (fun _ => 1000) (fun _ => none) (fun _ => [])
    (strBytes "x") (strBytes "A") (strBytes "1") (strBytes "0")
    (by norm_num) (by norm_num)

/-- Claim C7, failing input: deleting the sole recorded file raises a
`TypeError` while re-serializing the superblock (`update_superblock` feeds
the JSON string to `data2echo`, and `bytes` of a one-character string needs
an encoding), so neither the superblock update nor the macro deletion ever
reaches the device. -/
theorem pcl_delete_raises :
    pcl_delete [(strBytes "x", ⟨strBytes "10000", strBytes "1", strBytes "0"⟩)]
      (strBytes "x") = .error .typeError := by
  rfl

/-- Chunking partitions the list: concatenating the chunks restores it. -/
theorem chunksOf_flatten {α : Type} (n : Nat) (l : List α) :
    (chunksOf n l).flatten = l := by
  induction l using chunksOf.induct n with
  | case1 => simp [chunksOf]
  | case2 x xs ih =>
    rw [chunksOf]
    simp only [List.flatten_cons, ih, List.cons_append, List.take_append_drop]

/-- Every chunk of a positive-size chunking is nonempty and no longer than
the chunk size. -/
theorem chunksOf_mem_bound {α : Type} (n : Nat) (l : List α) (c : List α)
    (hc : c ∈ chunksOf (n + 1) l) : c.length ≤ n + 1 ∧ c ≠ [] := by
  induction l using chunksOf.induct (n + 1) with
  | case1 => simp [chunksOf] at hc
  | case2 x xs ih =>
    rw [chunksOf] at hc
    rcases List.mem_cons.1 hc with h | h
    · subst h
      refine ⟨?_, by simp⟩
      have := List.length_take_le (n + 1 - 1) xs
      simp only [List.length_cons]
      omega
    · exact ih h

/-- The chunk loop sends exactly the chunks whose inquiry reply still
reports protection (in order), then the first other chunk followed by the
lock-off command — or all chunks when every reply reports protection. -/
theorem pjl_crack_loop_eq (device : Bytes → Bytes) (cs : List (List Bytes)) :
    pjl_crack_loop device cs =
      (cs.takeWhile fun ch => (strBytes "ENA").isPrefixOf (device (pjl_chunk_cmd ch))).map
        pjl_chunk_cmd ++
      (match cs.dropWhile fun ch => (strBytes "ENA").isPrefixOf (device (pjl_chunk_cmd ch)) with
       | [] => []
       | ch :: _ => [pjl_chunk_cmd ch, pjl_lock_off]) := by
  induction cs with
  | nil => rfl
  | cons ch rest ih =>
    by_cases h : (strBytes "ENA").isPrefixOf (device (pjl_chunk_cmd ch)) = true
    · rw [pjl_crack_loop, if_pos h, ih]
      simp [List.takeWhile_cons, List.dropWhile_cons, h]
    · rw [pjl_crack_loop, if_neg h]
      simp [List.takeWhile_cons, List.dropWhile_cons, h]

/-- Claim C8: with no user-supplied PIN the keyspace is the empty string
followed by 1..65535 (65536 candidates), batched into nonempty chunks of at
most 500 that together cover the keyspace in order; each chunk is sent as
one compound command (every candidate's try-and-reset lines, then a single
protection inquiry), and the loop proceeds past exactly those chunks whose
inquiry reply still starts with `b"ENA"`, stopping at the first other chunk
and then disabling the panel and disk locks. -/
theorem pjl_do_unlock_crack_spec (device : Bytes → Bytes) :
    pjl_do_unlock_nopin device =
      ((chunksOf 500 pjl_keyspace).takeWhile fun ch =>
          (strBytes "ENA").isPrefixOf (device (pjl_chunk_cmd ch))).map pjl_chunk_cmd ++
        (match (chunksOf 500 pjl_keyspace).dropWhile fun ch =>
            (strBytes "ENA").isPrefixOf (device (pjl_chunk_cmd ch)) with
         | [] => []
         | ch :: _ => [pjl_chunk_cmd ch, pjl_lock_off]) ∧
    (chunksOf 500 pjl_keyspace).flatten = pjl_keyspace ∧
    ((chunksOf 500 pjl_keyspace).all fun ch =>
      decide (ch.length ≤ 500) && !ch.isEmpty) = true ∧
    pjl_keyspace.length = 65536 ∧
    pjl_keyspace.head? = some (strBytes "") ∧
    (∀ ch : List Bytes, pjl_chunk_cmd ch =
      (ch.map pjl_pin_line).flatten ++ strBytes "@PJL DINQUIRE PASSWORD") := by
  refine ⟨pjl_crack_loop_eq device _, chunksOf_flatten 500 pjl_keyspace, ?_, ?_, rfl,
    fun ch => rfl⟩
  · rw [List.all_eq_true]
    intro ch hch
    rcases chunksOf_mem_bound 499 pjl_keyspace ch hch with ⟨h1, h2⟩
    simp [h1, h2]
  · rw [pjl_keyspace, List.length_cons, List.length_map, List.length_range']

/-- Looking up a dict after a Python-style insertion. -/
theorem lookup_dictInsert {α : Type} (m : List (Bytes × α)) (k : Bytes) (v : α)
    (q : Bytes) :
    List.lookup q (dictInsert m k v) = if q == k then some v else List.lookup q m := by
  induction m with
  | nil =>
    simp only [dictInsert, List.lookup]
    by_cases hq : q = k
    · simp [hq]
    · simp [show (q == k) = false by simpa using hq, hq]
  | cons p rest ih =>
    by_cases hpk : p.1 = k
    · rw [dictInsert, if_pos hpk]
      by_cases hq : q = k
      · simp [hq, List.lookup]
      · have h1 : (q == k) = false := by simpa using hq
        have h2 : (q == p.1) = false := by simpa [hpk] using hq
        simp [List.lookup, h1, h2]
    · rw [dictInsert, if_neg hpk]
      by_cases hq : q = p.1
      · have hqk : (q == k) = false := by
          subst hq; simpa using hpk
        simp [List.lookup, hq, hqk, hpk]
      · have h2 : (q == p.1) = false := by simpa using hq
        simp [List.lookup, h2, ih]

/-- Building a dict from one more pair. -/
theorem dictOf_snoc {α : Type} (l : List (Bytes × α)) (p : Bytes × α) :
    dictOf (l ++ [p]) = dictInsert (dictOf l) p.1 p.2 := by
  simp [dictOf, List.foldl_append]

/-- A Python dict built from a pair list answers lookups like the reversed
pair list: the last occurrence of a key wins. -/
theorem lookup_dictOf {α : Type} (l : List (Bytes × α)) (q : Bytes) :
    List.lookup q (dictOf l) = List.lookup q l.reverse := by
  induction l using List.reverseRecOn with
  | nil => rfl
  | append_singleton l p ih =>
    rw [dictOf_snoc, lookup_dictInsert, List.reverse_append]
    by_cases hq : q = p.1
    · simp [List.lookup, hq]
    · have h1 : (q == p.1) = false := by simpa using hq
      simp [List.lookup, h1, ih]

/-- A successful lookup names an actual binding of the list. -/
theorem mem_of_lookup_some {α : Type} (m : List (Bytes × α)) (k : Bytes) (v : α)
    (h : List.lookup k m = some v) : (k, v) ∈ m := by
  induction m with
  | nil => cases h
  | cons p rest ih =>
    rw [List.lookup] at h
    cases hbeq : (k == p.1) with
    | true =>
      simp only [hbeq] at h
      have hk : k = p.1 := by simpa using hbeq
      have hv : p.2 = v := by simpa using h
      have hp : (k, v) = p := by rw [hk, ← hv]
      rw [hp]
      exact List.mem_cons_self p rest
    | false =>
      simp only [hbeq] at h
      exact List.mem_cons_of_mem p (ih h)

/-- Claim C9: every surviving `CODE<i>=n` pair (the last occurrence of its
index wins, as the reversed-list lookup states) is reported paired with the
`DISPLAY<i>` message of the same index — or the fixed placeholder when no
display of that index exists — and the reported code is the original with
2000 subtracted exactly when its decimal text begins with `32`, unchanged
otherwise. -/
theorem pjl_showstatus_pairs (codesL msgsL : List (Bytes × Bytes))
    (num code : Bytes) (h : List.lookup num codesL.reverse = some code) :
    (strBytes "CODE " ++ fix_code code ++ strBytes ": " ++
        ((List.lookup num msgsL.reverse).getD UNKNOWN_STATUS)) ∈
      showstatus_lines codesL msgsL ∧
    ((strBytes "32").isPrefixOf code = true →
      fix_code code = intToDecBytes ((decVal code : Int) - 2000)) ∧
    ((strBytes "32").isPrefixOf code = false → fix_code code = code) := by
  refine ⟨?_, ?_, ?_⟩
  · have hmem : (num, code) ∈ dictOf codesL :=
      mem_of_lookup_some _ _ _ ((lookup_dictOf codesL num).trans h)
    have := List.mem_map_of_mem (fun p : Bytes × Bytes =>
      strBytes "CODE " ++ fix_code p.2 ++ strBytes ": " ++
        ((List.lookup p.1 (dictOf msgsL)).getD UNKNOWN_STATUS)) hmem
    rw [showstatus_lines]
    simpa [lookup_dictOf msgsL num] using this
  · intro hp; rw [fix_code, if_pos hp]
  · intro hp; rw [fix_code, if_neg (by simp [hp])]

/-- Witness for C9: from the status block pairs `CODE1=32017` (twice, the
second occurrence winning as `CODE1=32017` again) and no displays, the
report contains `CODE 30017: UNKNOWN STATUS` — the vendor prefix 32 got the
off-by-2000 correction and the placeholder message was used. -/
theorem pjl_showstatus_pairs_witness :
    (strBytes "CODE " ++ fix_code (strBytes "32017") ++ strBytes ": " ++
        ((List.lookup (strBytes "1") ([] : List (Bytes × Bytes)).reverse).getD
          UNKNOWN_STATUS)) ∈
      showstatus_lines [(strBytes "1", strBytes "32017")] [] ∧
    fix_code (strBytes "32017") = strBytes "30017" := by
  constructor
  · exact (pjl_showstatus_pairs [(strBytes "1", strBytes "32017")] []
      (strBytes "1") (strBytes "32017") (by rfl)).1
  · rfl

-- ======================================================================
-- Theorems on the PostScript listing
-- ======================================================================

/-- Transitivity of the lexicographic order. -/
theorem lexLt_trans : ∀ x y z : Bytes,
    lexLt x y = true → lexLt y z = true → lexLt x z = true := by
  intro x
  induction x with
  | nil =>
    intro y z hxy hyz
    cases y with
    | nil => simp [lexLt] at hxy
    | cons b bs =>
      cases z with
      | nil => simp [lexLt] at hyz
      | cons c cs => simp [lexLt]
  | cons a as ih =>
    intro y z hxy hyz
    cases y with
    | nil => simp [lexLt] at hxy
    | cons b bs =>
      cases z with
      | nil => simp [lexLt] at hyz
      | cons c cs =>
        rw [lexLt] at hxy hyz ⊢
        by_cases hab : a < b
        · rw [if_pos hab] at hxy
          by_cases hbc : b < c
          · rw [if_pos (by omega)]
          · rw [if_neg hbc] at hyz
            by_cases hcb : c < b
            · rw [if_pos hcb] at hyz; cases hyz
            · rw [if_pos (by omega)]
        · rw [if_neg hab] at hxy
          by_cases hba : b < a
          · rw [if_pos hba] at hxy; cases hxy
          · rw [if_neg hba] at hxy
            by_cases hbc : b < c
            · rw [if_pos (by omega)]
            · rw [if_neg hbc] at hyz
              by_cases hcb : c < b
              · rw [if_pos hcb] at hyz; cases hyz
              · rw [if_neg hcb] at hyz
                rw [if_neg (by omega), if_neg (by omega)]
                exact ih bs cs hxy hyz

/-- Totality of the lexicographic order on distinct byte strings. -/
theorem lexLt_total : ∀ x y : Bytes, x ≠ y → lexLt x y = true ∨ lexLt y x = true := by
  intro x
  induction x with
  | nil =>
    intro y hxy
    cases y with
    | nil => exact absurd rfl hxy
    | cons b bs => left; simp [lexLt]
  | cons a as ih =>
    intro y hxy
    cases y with
    | nil => right; simp [lexLt]
    | cons b bs =>
      by_cases hab : a < b
      · left; rw [lexLt, if_pos hab]
      · by_cases hba : b < a
        · right; rw [lexLt, if_pos hba]
        · have hab' : a = b := by omega
          have hne : as ≠ bs := by
            intro h; exact hxy (by rw [hab', h])
          rcases ih bs hne with h | h
          · left; rw [lexLt, if_neg hab, if_neg hba]; exact h
          · right; rw [lexLt, if_neg (by omega), if_neg (by omega)]; exact h

/-- Membership after ordered insertion. -/
theorem mem_insertD (x z : Bytes) : ∀ l : List Bytes,
    z ∈ insertD x l ↔ z = x ∨ z ∈ l := by
  intro l
  induction l with
  | nil => simp [insertD]
  | cons y ys ih =>
    rw [insertD]
    by_cases hxy : x = y
    · rw [if_pos hxy]
      subst hxy
      simp only [List.mem_cons]
      tauto
    · rw [if_neg hxy]
      by_cases hlt : lexLt x y = true
      · rw [if_pos hlt]
        simp only [List.mem_cons, ih]
      · rw [if_neg hlt]
        simp only [List.mem_cons, ih]
        tauto

/-- Ordered insertion preserves strict ordering. -/
theorem pairwise_insertD (x : Bytes) (l : List Bytes)
    (h : l.Pairwise (fun a b => lexLt a b = true)) :
    (insertD x l).Pairwise (fun a b => lexLt a b = true) := by
  induction l with
  | nil => simp [insertD]
  | cons y ys ih =>
    rcases List.pairwise_cons.1 h with ⟨hy, hys⟩
    rw [insertD]
    by_cases hxy : x = y
    · rw [if_pos hxy]; exact h
    · rw [if_neg hxy]
      by_cases hlt : lexLt x y = true
      · rw [if_pos hlt]
        refine List.Pairwise.cons ?_ h
        intro z hz
        rcases List.mem_cons.1 hz with h1 | h1
        · subst h1; exact hlt
        · exact lexLt_trans x y z hlt (hy z h1)
      · rw [if_neg hlt]
        have hyx : lexLt y x = true := by
          rcases lexLt_total x y hxy with h1 | h1
          · exact absurd h1 hlt
          · exact h1
        refine List.Pairwise.cons ?_ (ih hys)
        intro z hz
        rcases (mem_insertD x z ys).1 hz with h1 | h1
        · subst h1; exact hyx
        · exact hy z h1

/-- The deduplicating sort is strictly increasing (hence duplicate-free and
sorted). -/
theorem pairwise_sortDedup (l : List Bytes) :
    (sortDedup l).Pairwise (fun a b => lexLt a b = true) := by
  induction l with
  | nil => exact List.Pairwise.nil
  | cons a as ih => exact pairwise_insertD a (sortDedup as) ih

/-- The deduplicating sort preserves membership exactly. -/
theorem mem_sortDedup (z : Bytes) (l : List Bytes) :
    z ∈ sortDedup l ↔ z ∈ l := by
  induction l with
  | nil => simp [sortDedup]
  | cons a as ih =>
    show z ∈ insertD a (sortDedup as) ↔ _
    rw [mem_insertD, ih]
    simp [List.mem_cons]

/-- Claim C10: `postscript.dirlist` issues the double-wildcard (recursive)
enumeration first and issues the single-wildcard (flat) enumeration exactly
when the recursive reply was empty; the returned listing is a strictly
increasing (so deduplicated and sorted) enumeration of exactly the reply
lines of whichever enumeration was used. -/
theorem ps_dirlist_spec (device : Bytes → Bytes) (vol path : Bytes) :
    ((ps_dirlist device vol path).1 =
      if (device (ps_find_payload (vol ++ path ++ strBytes "**"))).isEmpty
      then [ps_find_payload (vol ++ path ++ strBytes "**"),
            ps_find_payload (vol ++ path ++ strBytes "*")]
      else [ps_find_payload (vol ++ path ++ strBytes "**")]) ∧
    ((ps_dirlist device vol path).2).Pairwise (fun a b => lexLt a b = true) ∧
    (∀ name : Bytes, name ∈ (ps_dirlist device vol path).2 ↔
      name ∈ splitLines
        (if (device (ps_find_payload (vol ++ path ++ strBytes "**"))).isEmpty
         then device (ps_find_payload (vol ++ path ++ strBytes "*"))
         else device (ps_find_payload (vol ++ path ++ strBytes "**")))) := by
  by_cases h : (device (ps_find_payload (vol ++ path ++ strBytes "**"))).isEmpty
  · refine ⟨?_, ?_, ?_⟩
    · simp only [ps_dirlist, h, if_true]
    · simp only [ps_dirlist, h, if_true]
      exact pairwise_sortDedup _
    · intro name
      simp only [ps_dirlist, h, if_true]
      exact mem_sortDedup name _
  · refine ⟨?_, ?_, ?_⟩
    · simp only [ps_dirlist, h, Bool.false_eq_true, if_false]
    · simp only [ps_dirlist, h, Bool.false_eq_true, if_false]
      exact pairwise_sortDedup _
    · intro name
      simp only [ps_dirlist, h, Bool.false_eq_true, if_false]
      exact mem_sortDedup name _
